import Mathlib

/-!
Verification of `src/14-analytics-platform/serving/query.py` (class
`AnalyticsService`), a unifying query layer over a lambda architecture: a
batch store (ClickHouse) holding finalized aggregates and a speed-layer
store (Redis) holding recent per-minute counters.

Timestamps are modelled as integer Unix seconds (`Int`); `datetime`
arithmetic in the source is plain arithmetic on seconds
(`timedelta(hours=1)` is `3600`, `timedelta(minutes=1)` is `60`).
Monetary values are modelled as `ℚ`; the properties verified here (zero
guards, sign and order comparisons) are robust to the difference between
exact rationals and Python floats.  The two store clients are modelled by
their contents: `fact_orders` as the list of `created_at` timestamps of
its rows, Redis as a partial map from the bucket timestamp (the integer
embedded in the key `"order_count:" + str(ts)`, which determines the key)
to the stored counter value.  The SQL query strings in the source are
embedded by their standard semantics over those contents.
-/

namespace AnalyticsQuery

/-- `start_time.replace(minute=0, second=0, microsecond=0)` (query.py line
49): truncation of a timestamp down to the enclosing hour boundary.
`Int.emod` is nonnegative for a positive modulus, matching Python. -/
def truncHour (t : Int) : Int := t - t % 3600

/-- ClickHouse `toStartOfMinute(created_at)` (line 61): truncation of a
timestamp down to the enclosing minute boundary. -/
def truncMinute (t : Int) : Int := t - t % 60

/-- The loop of lines 50–51: `while batch_latest < end_time: batch_latest
+= cadence`.  The `0 < c` conjunct is a termination guard only: the source
always steps by `timedelta(hours=1)`, i.e. `c = 3600 > 0`, for which the
condition is exactly the loop condition of the source. -/
def advanceWhile (c b e : Int) : Int :=
  if _h : 0 < c ∧ b < e then advanceWhile c (b + c) e else b
termination_by (e - b).toNat
decreasing_by omega

/-- Lines 49–52 of `get_order_count_by_minute`, parameterized by the batch
refresh cadence `c`: truncate `start_time` down to a cadence boundary
(`s - s % c`; the source's `replace(minute=0, second=0, microsecond=0)`
for the hourly cadence), step forward by whole cadences while strictly
below `end_time`, then step back one cadence. -/
def resolve (c s e : Int) : Int := advanceWhile c (s - s % c) e - c

/-- The `batch_latest` cutover computed by `get_order_count_by_minute`
(lines 49–52): `resolve` at the source's hard-coded hourly cadence. -/
def batch_latest (s e : Int) : Int := resolve 3600 s e

/-- Contents of the two external stores.  `factOrders` lists the
`created_at` timestamp of every row of the ClickHouse table
`fact_orders`; `speed` is the Redis keyspace restricted to
`order_count:*` keys, keyed by the bucket timestamp (stored values are
nonempty decimal strings, hence truthy in Python, parsed by `int`). -/
structure Stores where
  factOrders : List Int
  speed : Int → Option Nat

/-- Number of `fact_orders` rows selected into the group of minute `m` by
the grouped query of lines 59–67: rows with `s <= created_at < e` and
`toStartOfMinute(created_at) = m`. -/
def minuteCount (db : List Int) (s e m : Int) : Nat :=
  db.countP fun t => decide (s ≤ t) && decide (t < e) && decide (truncMinute t = m)

/-- Result rows of the grouped query of lines 59–67 (`SELECT
toStartOfMinute(created_at), count() ... WHERE created_at >= s AND
created_at < e GROUP BY minute ORDER BY minute`): every minute group key
is a multiple of 60 in `[truncMinute s, e)`, so iterating candidate
minutes in ascending order and keeping those with at least one row is
exactly the query result, including its `ORDER BY minute`. -/
def groupByMinute (db : List Int) (s e m : Int) : List (Int × Nat) :=
  if _h : m < e then
    (if 0 < minuteCount db s e m then [(m, minuteCount db s e m)] else [])
      ++ groupByMinute db s e (m + 60)
  else []
termination_by (e - m).toNat
decreasing_by omega

/-- The batch (ClickHouse) grouped query of lines 59–72 over the range
`[s, e)`. -/
def batchQuery (db : List Int) (s e : Int) : List (Int × Nat) :=
  groupByMinute db s e (truncMinute s)

/-- Row count selected by the fallback query of lines 88–92. -/
def fallbackCount (db : List Int) (s e : Int) : Nat :=
  db.countP fun t => decide (s ≤ t) && decide (t < e)

/-- Result of the fallback query `SELECT count() FROM fact_orders WHERE
created_at >= s AND created_at < e` (lines 88–99): an aggregate without
`GROUP BY` always returns exactly one row, whose single column is the
count of matching rows (`0` when no row matches). -/
def fallbackQuery (db : List Int) (s e : Int) : List Nat := [fallbackCount db s e]

/-- The speed-layer loop of lines 79–103: per-minute buckets from `cur`
while strictly below `e`; a Redis hit is used directly, a miss triggers
the single-bucket fallback query, whose first row is appended whenever the
result is nonempty (the `if fallback_result:` guard of line 100). -/
def speedLoop (st : Stores) (cur e : Int) : List (Int × Nat) :=
  if _h : cur < e then
    (match st.speed cur with
     | some n => [(cur, n)]
     | none =>
       match fallbackQuery st.factOrders cur (cur + 60) with
       | [] => []
       | r :: _ => [(cur, r)])
      ++ speedLoop st (cur + 60) e
  else []
termination_by (e - cur).toNat
decreasing_by omega

/-- Lines 57–74: the batch-layer portion of the result, present only when
`start_time < batch_latest`, covering `[start_time, min(end_time,
batch_latest))`. -/
def batchPoints (db : List Int) (s e : Int) : List (Int × Nat) :=
  if s < batch_latest s e then batchQuery db s (min e (batch_latest s e)) else []

/-- Lines 77–103: the speed-layer portion of the result, present only when
`end_time > batch_latest`, iterating buckets from `batch_latest`. -/
def speedPoints (st : Stores) (s e : Int) : List (Int × Nat) :=
  if batch_latest s e < e then speedLoop st (batch_latest s e) e else []

/-- `AnalyticsService.get_order_count_by_minute` (lines 33–105): the batch
rows extended by the speed-layer points, in that order. -/
def get_order_count_by_minute (st : Stores) (s e : Int) : List (Int × Nat) :=
  batchPoints st.factOrders s e ++ speedPoints st s e

/-- The ascending list of minute buckets `cur, cur + 60, ...` strictly
below `e`: the set of buckets the speed-layer loop of lines 79–103
iterates over. -/
def minuteRange (cur e : Int) : List Int :=
  if _h : cur < e then cur :: minuteRange (cur + 60) e else []
termination_by (e - cur).toNat
decreasing_by omega

/-! ### Aggregate queries (`get_daily_sales_by_category`,
`get_realtime_metrics`, `get_conversion_funnel`) -/

/-- A row of the materialized view `mv_daily_sales` read by
`get_daily_sales_by_category` (lines 135–146): category, order date
(modelled as an integer day), pre-aggregated daily sales and order
count. -/
structure MvRow where
  category : String
  order_date : Int
  daily_sales : ℚ
  order_count : Nat
deriving DecidableEq

/-- ClickHouse division `a / b` as it appears unguarded in the select list
`sum(daily_sales) / sum(order_count)` of line 141: for `b = 0` ClickHouse
does not produce the number `0` — floating-point types yield `inf`/`nan`
and decimal types raise a division-by-zero fault — modelled as `none`. -/
def clickhouseDiv (a b : ℚ) : Option ℚ := if b = 0 then none else some (a / b)

/-- Output row of `get_daily_sales_by_category` (lines 156–165), the dict
built from one result row of the grouped query; `avg_order_value` is the
store-side division of line 141. -/
structure DailySalesEntry where
  category : String
  order_date : Int
  daily_sales : ℚ
  order_count : Nat
  avg_order_value : Option ℚ

/-- The `mv_daily_sales` rows selected into the group `(cat, d)` by the
query of lines 135–146: `start_date <= order_date <= end_date` (the
`WHERE` clause of line 143) and the `GROUP BY category, order_date` key
equal to `(cat, d)`. -/
def mvMatches (tbl : List MvRow) (lo hi : Int) (cat : String) (d : Int) : List MvRow :=
  tbl.filter fun r =>
    decide (lo ≤ r.order_date) && decide (r.order_date ≤ hi) &&
      decide (r.category = cat) && decide (r.order_date = d)

/-- Sum of `daily_sales` over a list of `mv_daily_sales` rows (line 139). -/
def mvSalesSum (rs : List MvRow) : ℚ := (rs.map MvRow.daily_sales).sum

/-- Sum of `order_count` over a list of `mv_daily_sales` rows (line 140). -/
def mvCountSum (rs : List MvRow) : Nat := (rs.map MvRow.order_count).sum

/-- The result row of `get_daily_sales_by_category` (lines 135–165) for
the group `(cat, d)`: present exactly when at least one view row matches
(SQL `GROUP BY` emits no row for an empty group), carrying the two sums
and the unguarded store-side average of line 141.  The full return value
is one such row per distinct matching group, ordered by date descending
then sales descending; the per-group contents are what the claims
concern. -/
def dailySalesRow (tbl : List MvRow) (lo hi : Int) (cat : String) (d : Int) :
    Option DailySalesEntry :=
  match mvMatches tbl lo hi cat d with
  | [] => none
  | rs@(_ :: _) =>
    some ⟨cat, d, mvSalesSum rs, mvCountSum rs,
      clickhouseDiv (mvSalesSum rs) (mvCountSum rs)⟩

/-- A result row of the realtime query of lines 365–379: minute bucket,
order count and revenue for that minute. -/
structure RtRow where
  minute : Int
  order_count : Nat
  revenue : ℚ

/-- `total_orders` of line 381: sum of the per-minute order counts. -/
def rtTotalOrders (rows : List RtRow) : Nat := (rows.map RtRow.order_count).sum

/-- `total_revenue` of line 382: sum of the per-minute revenues. -/
def rtTotalRevenue (rows : List RtRow) : ℚ := (rows.map RtRow.revenue).sum

/-- Return value of `get_realtime_metrics` (lines 384–396), as a function
of the store's result rows (the query's `WHERE created_at >= now() - 5min`
uses the wall clock and is part of the store response here);
`avg_order_value` is the Python-side guarded division of line 387. -/
structure RealtimeMetrics where
  last_5min_orders : Nat
  last_5min_revenue : ℚ
  avg_order_value : ℚ
  orders_per_minute : List RtRow

/-- `get_realtime_metrics` (lines 345–396) applied to the rows returned by
the batch store. -/
def get_realtime_metrics (rows : List RtRow) : RealtimeMetrics :=
  ⟨rtTotalOrders rows, rtTotalRevenue rows,
    if 0 < rtTotalOrders rows then rtTotalRevenue rows / (rtTotalOrders rows : ℚ) else 0,
    rows⟩

/-- ClickHouse `toDate(timestamp)` for a Unix-seconds timestamp: the day
number, by floor division. -/
def toDate (t : Int) : Int := t / 86400

/-- `countIf(event_type = ty)` over the `fact_clickstream` rows selected
by the date filter of lines 426–427; an event is a pair of its timestamp
and its `event_type`. -/
def countIf (evs : List (Int × String)) (lo hi : Int) (ty : String) : Nat :=
  evs.countP fun ev =>
    decide (lo ≤ toDate ev.1) && decide (toDate ev.1 ≤ hi) && decide (ev.2 = ty)

/-- Result of the funnel query of lines 420–428: an aggregate without
`GROUP BY` always returns exactly one row `(page_views, add_to_carts,
purchases)`. -/
def funnelQuery (evs : List (Int × String)) (lo hi : Int) : List (Nat × Nat × Nat) :=
  [(countIf evs lo hi "page_view", countIf evs lo hi "add_to_cart",
    countIf evs lo hi "purchase")]

/-- Return value of `get_conversion_funnel` (lines 440–447). -/
structure FunnelResult where
  page_views : Nat
  add_to_carts : Nat
  purchases : Nat
  view_to_cart_rate : ℚ
  cart_to_purchase_rate : ℚ
  overall_conversion_rate : ℚ

/-- Lines 430–447 of `get_conversion_funnel` as a function of the rows
returned by the batch store: the `[0]` indexing of line 436 is modelled by
`head?`, with `none` standing for the `IndexError` raised on an empty
result; the three rates carry the Python-side zero guards of lines
444–446. -/
def funnelFromRows (rows : List (Nat × Nat × Nat)) : Option FunnelResult :=
  rows.head?.map fun r =>
    ⟨r.1, r.2.1, r.2.2,
      if 0 < r.1 then (r.2.1 : ℚ) / (r.1 : ℚ) * 100 else 0,
      if 0 < r.2.1 then (r.2.2 : ℚ) / (r.2.1 : ℚ) * 100 else 0,
      if 0 < r.1 then (r.2.2 : ℚ) / (r.1 : ℚ) * 100 else 0⟩

/-- `AnalyticsService.get_conversion_funnel` (lines 402–447): the funnel
query against the clickstream table followed by the row mapping. -/
def get_conversion_funnel (evs : List (Int × String)) (lo hi : Int) : Option FunnelResult :=
  funnelFromRows (funnelQuery evs lo hi)

/-! ### Cutover lemmas -/

lemma advanceWhile_stop {c b e : Int} (h : ¬(0 < c ∧ b < e)) : advanceWhile c b e = b := by
  unfold advanceWhile
  rw [dif_neg h]

lemma advanceWhile_step {c b e : Int} (hc : 0 < c) (hb : b < e) :
    advanceWhile c b e = advanceWhile c (b + c) e := by
  conv_lhs => unfold advanceWhile
  rw [dif_pos ⟨hc, hb⟩]

lemma add_emod_self (a b : Int) : (a + b) % b = a % b := by
  simp

lemma advanceWhile_bounds_aux (c e : Int) (hc : 0 < c) :
    ∀ n : Nat, ∀ b : Int, (e - b).toNat ≤ n → b < e →
      e ≤ advanceWhile c b e ∧ advanceWhile c b e < e + c := by
  intro n
  induction n with
  | zero => intro b hn hb; omega
  | succ n ih =>
    intro b hn hb
    rw [advanceWhile_step hc hb]
    by_cases h2 : b + c < e
    · exact ih (b + c) (by omega) h2
    · rw [advanceWhile_stop (by omega)]
      omega

lemma advanceWhile_bounds {c b e : Int} (hc : 0 < c) (hbe : b < e) :
    e ≤ advanceWhile c b e ∧ advanceWhile c b e < e + c :=
  advanceWhile_bounds_aux c e hc (e - b).toNat b le_rfl hbe

lemma advanceWhile_emod_aux (c e : Int) (hc : 0 < c) :
    ∀ n : Nat, ∀ b : Int, (e - b).toNat ≤ n → advanceWhile c b e % c = b % c := by
  intro n
  induction n with
  | zero =>
    intro b hn
    rw [advanceWhile_stop (by omega)]
  | succ n ih =>
    intro b hn
    by_cases hb : b < e
    · rw [advanceWhile_step hc hb, ih (b + c) (by omega), add_emod_self]
    · rw [advanceWhile_stop (by omega)]

lemma advanceWhile_emod {c b e : Int} (hc : 0 < c) : advanceWhile c b e % c = b % c :=
  advanceWhile_emod_aux c e hc (e - b).toNat b le_rfl

lemma emod_zero_cases {c d : Int} (_hc : 0 < c) (hd : d % c = 0) (h0 : 0 ≤ d)
    (h2 : d < 2 * c) : d = 0 ∨ d = c := by
  by_cases hdc : d < c
  · left
    have := Int.emod_eq_of_lt h0 hdc
    omega
  · right
    have hsub : (d - c) % c = 0 := by
      rw [Int.sub_emod, hd, Int.emod_self]
      simp
    have := Int.emod_eq_of_lt (show (0 : Int) ≤ d - c by omega) (show d - c < c by omega)
    omega

/-- Closed form of the cutover of lines 49–52: truncate `end_time` down to
the nearest cadence boundary, stepping back one full cadence when
`end_time` is itself cadence-aligned. -/
lemma resolve_eq {c s e : Int} (hc : 0 < c) (hse : s ≤ e) :
    resolve c s e = if e % c = 0 then e - c else e - e % c := by
  have hsc0 : 0 ≤ s % c := Int.emod_nonneg s (ne_of_gt hc)
  have hb0 : (s - s % c) % c = 0 := by
    rw [Int.sub_emod, Int.emod_emod_of_dvd s dvd_rfl]
    simp
  by_cases hlt : s - s % c < e
  · obtain ⟨hge, hub⟩ := advanceWhile_bounds hc hlt
    have hr0 : advanceWhile c (s - s % c) e % c = 0 := by
      rw [advanceWhile_emod hc, hb0]
    have hec0 : 0 ≤ e % c := Int.emod_nonneg e (ne_of_gt hc)
    have hecc : e % c < c := Int.emod_lt_of_pos e hc
    have heec : (e - e % c) % c = 0 := by
      rw [Int.sub_emod, Int.emod_emod_of_dvd e dvd_rfl]
      simp
    have hd : (advanceWhile c (s - s % c) e - (e - e % c)) % c = 0 := by
      rw [Int.sub_emod, hr0, heec]
      simp
    have hcases := emod_zero_cases hc hd (by omega) (by omega)
    unfold resolve
    by_cases he : e % c = 0
    · rw [if_pos he]
      omega
    · rw [if_neg he]
      omega
  · have hstop : advanceWhile c (s - s % c) e = s - s % c :=
      advanceWhile_stop (by omega)
    have hs_eq : s % c = 0 ∧ s = e := by omega
    have he : e % c = 0 := by
      rw [← hs_eq.2]
      exact hs_eq.1
    unfold resolve
    rw [hstop, if_pos he]
    omega

/-! ### Bucket-iteration lemmas -/

lemma groupByMinute_stop {db : List Int} {s e m : Int} (h : ¬ m < e) :
    groupByMinute db s e m = [] := by
  unfold groupByMinute
  rw [dif_neg h]

lemma groupByMinute_step {db : List Int} {s e m : Int} (h : m < e) :
    groupByMinute db s e m =
      (if 0 < minuteCount db s e m then [(m, minuteCount db s e m)] else [])
        ++ groupByMinute db s e (m + 60) := by
  conv_lhs => unfold groupByMinute
  rw [dif_pos h]

lemma groupByMinute_mem_aux (db : List Int) (s e : Int) :
    ∀ n : Nat, ∀ m : Int, (e - m).toNat ≤ n →
      ∀ p ∈ groupByMinute db s e m, m ≤ p.1 ∧ p.1 < e := by
  intro n
  induction n with
  | zero =>
    intro m hn p hp
    rw [groupByMinute_stop (by omega)] at hp
    simp at hp
  | succ n ih =>
    intro m hn p hp
    by_cases hm : m < e
    · rw [groupByMinute_step hm] at hp
      rcases List.mem_append.mp hp with h1 | h2
      · by_cases hc : 0 < minuteCount db s e m
        · rw [if_pos hc] at h1
          simp at h1
          subst h1
          exact ⟨le_refl _, hm⟩
        · rw [if_neg hc] at h1
          simp at h1
      · have := ih (m + 60) (by omega) p h2
        exact ⟨by omega, this.2⟩
    · rw [groupByMinute_stop hm] at hp
      simp at hp

lemma groupByMinute_mem {db : List Int} {s e m : Int} {p : Int × Nat}
    (hp : p ∈ groupByMinute db s e m) : m ≤ p.1 ∧ p.1 < e :=
  groupByMinute_mem_aux db s e (e - m).toNat m le_rfl p hp

lemma groupByMinute_pairwise_aux (db : List Int) (s e : Int) :
    ∀ n : Nat, ∀ m : Int, (e - m).toNat ≤ n →
      (groupByMinute db s e m).Pairwise (fun p q => p.1 < q.1) := by
  intro n
  induction n with
  | zero =>
    intro m hn
    rw [groupByMinute_stop (by omega)]
    exact List.Pairwise.nil
  | succ n ih =>
    intro m hn
    by_cases hm : m < e
    · rw [groupByMinute_step hm]
      rw [List.pairwise_append]
      refine ⟨?_, ih (m + 60) (by omega), ?_⟩
      · by_cases hc : 0 < minuteCount db s e m
        · rw [if_pos hc]
          simp
        · rw [if_neg hc]
          exact List.Pairwise.nil
      · intro p hp q hq
        have hq' := groupByMinute_mem_aux db s e n (m + 60) (by omega) q hq
        by_cases hc : 0 < minuteCount db s e m
        · rw [if_pos hc] at hp
          simp at hp
          subst hp
          omega
        · rw [if_neg hc] at hp
          simp at hp
    · rw [groupByMinute_stop hm]
      exact List.Pairwise.nil

lemma groupByMinute_pairwise {db : List Int} {s e m : Int} :
    (groupByMinute db s e m).Pairwise (fun p q => p.1 < q.1) :=
  groupByMinute_pairwise_aux db s e (e - m).toNat m le_rfl

lemma speedLoop_stop {st : Stores} {cur e : Int} (h : ¬ cur < e) :
    speedLoop st cur e = [] := by
  unfold speedLoop
  rw [dif_neg h]

/-- One iteration of the speed-layer loop appends exactly one point for
the bucket `cur`: the Redis value on a hit, the (always present) fallback
count on a miss. -/
lemma speedLoop_step {st : Stores} {cur e : Int} (h : cur < e) :
    speedLoop st cur e =
      (cur, (st.speed cur).getD (fallbackCount st.factOrders cur (cur + 60)))
        :: speedLoop st (cur + 60) e := by
  conv_lhs => unfold speedLoop
  rw [dif_pos h]
  cases hs : st.speed cur <;> simp [fallbackQuery, hs]

lemma speedLoop_mem_aux (st : Stores) (e : Int) :
    ∀ n : Nat, ∀ cur : Int, (e - cur).toNat ≤ n →
      ∀ p ∈ speedLoop st cur e, cur ≤ p.1 ∧ p.1 < e := by
  intro n
  induction n with
  | zero =>
    intro cur hn p hp
    rw [speedLoop_stop (by omega)] at hp
    simp at hp
  | succ n ih =>
    intro cur hn p hp
    by_cases hm : cur < e
    · rw [speedLoop_step hm] at hp
      rcases List.mem_cons.mp hp with h1 | h2
      · subst h1
        exact ⟨le_refl _, hm⟩
      · have := ih (cur + 60) (by omega) p h2
        exact ⟨by omega, this.2⟩
    · rw [speedLoop_stop hm] at hp
      simp at hp

lemma speedLoop_mem {st : Stores} {cur e : Int} {p : Int × Nat}
    (hp : p ∈ speedLoop st cur e) : cur ≤ p.1 ∧ p.1 < e :=
  speedLoop_mem_aux st e (e - cur).toNat cur le_rfl p hp

lemma speedLoop_pairwise_aux (st : Stores) (e : Int) :
    ∀ n : Nat, ∀ cur : Int, (e - cur).toNat ≤ n →
      (speedLoop st cur e).Pairwise (fun p q => p.1 < q.1) := by
  intro n
  induction n with
  | zero =>
    intro cur hn
    rw [speedLoop_stop (by omega)]
    exact List.Pairwise.nil
  | succ n ih =>
    intro cur hn
    by_cases hm : cur < e
    · rw [speedLoop_step hm]
      rw [List.pairwise_cons]
      refine ⟨?_, ih (cur + 60) (by omega)⟩
      intro q hq
      have := speedLoop_mem_aux st e n (cur + 60) (by omega) q hq
      simp only
      omega
    · rw [speedLoop_stop hm]
      exact List.Pairwise.nil

lemma speedLoop_pairwise {st : Stores} {cur e : Int} :
    (speedLoop st cur e).Pairwise (fun p q => p.1 < q.1) :=
  speedLoop_pairwise_aux st e (e - cur).toNat cur le_rfl

lemma minuteRange_stop {cur e : Int} (h : ¬ cur < e) : minuteRange cur e = [] := by
  unfold minuteRange
  rw [dif_neg h]

lemma minuteRange_step {cur e : Int} (h : cur < e) :
    minuteRange cur e = cur :: minuteRange (cur + 60) e := by
  conv_lhs => unfold minuteRange
  rw [dif_pos h]

lemma speedLoop_map_fst_aux (st : Stores) (e : Int) :
    ∀ n : Nat, ∀ cur : Int, (e - cur).toNat ≤ n →
      (speedLoop st cur e).map Prod.fst = minuteRange cur e := by
  intro n
  induction n with
  | zero =>
    intro cur hn
    rw [speedLoop_stop (by omega), minuteRange_stop (by omega)]
    rfl
  | succ n ih =>
    intro cur hn
    by_cases hm : cur < e
    · rw [speedLoop_step hm, minuteRange_step hm]
      simp only [List.map_cons]
      rw [ih (cur + 60) (by omega)]
    · rw [speedLoop_stop hm, minuteRange_stop hm]
      rfl

/-- The speed-layer loop reports exactly one point per minute bucket of
`[cur, e)`, in ascending order: its timestamps are precisely
`minuteRange cur e`. -/
lemma speedLoop_map_fst (st : Stores) (cur e : Int) :
    (speedLoop st cur e).map Prod.fst = minuteRange cur e :=
  speedLoop_map_fst_aux st e (e - cur).toNat cur le_rfl

/-- Any missed bucket of the iterated range is reported with the fallback
count of its one-minute window (zero rows included). -/
lemma speedLoop_mem_fallback (st : Stores) (e : Int) :
    ∀ (k : Nat) (cur t : Int), t = cur + 60 * (k : Int) → st.speed t = none → t < e →
      (t, fallbackCount st.factOrders t (t + 60)) ∈ speedLoop st cur e := by
  intro k
  induction k with
  | zero =>
    intro cur t ht hs hlt
    have hct : t = cur := by push_cast at ht; omega
    subst hct
    rw [speedLoop_step hlt, hs]
    exact List.mem_cons_self _ _
  | succ k ih =>
    intro cur t ht hs hlt
    have hcur : cur < e := by push_cast at ht; omega
    rw [speedLoop_step hcur]
    apply List.mem_cons_of_mem
    apply ih (cur + 60) t ?_ hs hlt
    push_cast at ht ⊢
    omega

/-! ### Shared facts about the two portions of the merged series -/

lemma batchPoints_mem_lt {db : List Int} {s e : Int} {p : Int × Nat}
    (hp : p ∈ batchPoints db s e) : p.1 < batch_latest s e := by
  unfold batchPoints at hp
  by_cases hb : s < batch_latest s e
  · rw [if_pos hb] at hp
    unfold batchQuery at hp
    exact lt_of_lt_of_le (groupByMinute_mem hp).2 (min_le_right _ _)
  · rw [if_neg hb] at hp
    simp at hp

lemma speedPoints_mem_ge {st : Stores} {s e : Int} {p : Int × Nat}
    (hp : p ∈ speedPoints st s e) : batch_latest s e ≤ p.1 ∧ p.1 < e := by
  unfold speedPoints at hp
  by_cases hb : batch_latest s e < e
  · rw [if_pos hb] at hp
    exact speedLoop_mem hp
  · rw [if_neg hb] at hp
    simp at hp

lemma speedPoints_map_fst (st : Stores) (s e : Int) :
    (speedPoints st s e).map Prod.fst = minuteRange (batch_latest s e) e := by
  unfold speedPoints
  by_cases hb : batch_latest s e < e
  · rw [if_pos hb]
    exact speedLoop_map_fst st _ e
  · rw [if_neg hb, minuteRange_stop hb]
    rfl

lemma batch_latest_lt_self (s : Int) : batch_latest s s < s := by
  have h0 : 0 ≤ s % 3600 := Int.emod_nonneg s (by norm_num)
  unfold batch_latest
  rw [resolve_eq (by norm_num) (le_refl s)]
  by_cases hs : s % 3600 = 0
  · rw [if_pos hs]
    omega
  · rw [if_neg hs]
    omega

/-! ### Claims -/

/-- Claim C1: for every query range (`start <= end`, the stated range
invariant) and every positive cadence, the cutover of lines 49–52 is
cadence-aligned, is `<= end`, is strictly less than `end` when `end` is
itself cadence-aligned, and is the latest cadence-aligned instant among
those strictly below `end` (for a non-aligned `end` those are exactly the
aligned instants `<= end`); `batch_latest` is this resolver at the
source's hourly cadence. -/
theorem claim_c1_cutover (c s e : Int) (hc : 0 < c) (hse : s ≤ e) :
    batch_latest s e = resolve 3600 s e ∧
    resolve c s e % c = 0 ∧
    resolve c s e ≤ e ∧
    (e % c = 0 → resolve c s e < e) ∧
    (∀ a : Int, a % c = 0 → a < e → a ≤ resolve c s e) := by
  have hre := resolve_eq hc hse
  have hec0 : 0 ≤ e % c := Int.emod_nonneg e (ne_of_gt hc)
  have hecc : e % c < c := Int.emod_lt_of_pos e hc
  refine ⟨rfl, ?_, ?_, ?_, ?_⟩
  · by_cases he : e % c = 0
    · rw [hre, if_pos he, Int.sub_emod, he, Int.emod_self]
      simp
    · rw [hre, if_neg he, Int.sub_emod, Int.emod_emod_of_dvd e dvd_rfl]
      simp
  · by_cases he : e % c = 0
    · rw [hre, if_pos he]
      omega
    · rw [hre, if_neg he]
      omega
  · intro he
    rw [hre, if_pos he]
    omega
  · intro a ha hae
    by_cases he : e % c = 0
    · rw [hre, if_pos he]
      have hd : (e - a) % c = 0 := by
        rw [Int.sub_emod, he, ha]
        simp
      by_cases hlt : e - a < c
      · have := Int.emod_eq_of_lt (show (0 : Int) ≤ e - a by omega) hlt
        omega
      · omega
    · rw [hre, if_neg he]
      by_contra hna
      push_neg at hna
      have hd : (e - a) % c = e % c := by
        rw [Int.sub_emod, ha]
        simp [Int.emod_emod_of_dvd e dvd_rfl]
      have := Int.emod_eq_of_lt (show (0 : Int) ≤ e - a by omega)
        (show e - a < c by omega)
      omega

/-- Witness for C1 at cadence 3600 and the range 13:00–14:30 of a day
(46800–52200 seconds). -/
theorem claim_c1_cutover_witness :
    0 < (3600 : Int) ∧ (46800 : Int) ≤ 52200 ∧
      (batch_latest 46800 52200 = resolve 3600 46800 52200 ∧
       resolve 3600 46800 52200 % 3600 = 0 ∧
       resolve 3600 46800 52200 ≤ 52200 ∧
       ((52200 : Int) % 3600 = 0 → resolve 3600 46800 52200 < 52200) ∧
       (∀ a : Int, a % 3600 = 0 → a < 52200 → a ≤ resolve 3600 46800 52200)) :=
  ⟨by norm_num, by norm_num,
    claim_c1_cutover 3600 46800 52200 (by norm_num) (by norm_num)⟩

/-- Claim C5: every timestamp of the batch-layer portion is strictly less
than the cutover, and every timestamp of the speed-layer portion
(fallback-sourced points included) is at least the cutover. -/
theorem claim_c5_disjointness (st : Stores) (s e : Int) :
    (∀ p ∈ batchPoints st.factOrders s e, p.1 < batch_latest s e) ∧
    (∀ p ∈ speedPoints st s e, batch_latest s e ≤ p.1) := by
  constructor
  · intro p hp
    exact batchPoints_mem_lt hp
  · intro p hp
    exact (speedPoints_mem_ge hp).1

/-- Claim C6: the merged series returned by `get_order_count_by_minute`
is strictly increasing by timestamp, hence has no duplicate buckets (the
batch store's `ORDER BY minute` is part of the embedded query
semantics). -/
theorem claim_c6_ordering (st : Stores) (s e : Int) :
    (get_order_count_by_minute st s e).Pairwise (fun p q => p.1 < q.1) ∧
    (get_order_count_by_minute st s e).Pairwise (fun p q => p.1 ≠ q.1) := by
  have hmain : (get_order_count_by_minute st s e).Pairwise (fun p q => p.1 < q.1) := by
    unfold get_order_count_by_minute
    rw [List.pairwise_append]
    refine ⟨?_, ?_, ?_⟩
    · unfold batchPoints
      by_cases hb : s < batch_latest s e
      · rw [if_pos hb]
        unfold batchQuery
        exact groupByMinute_pairwise
      · rw [if_neg hb]
        exact List.Pairwise.nil
    · unfold speedPoints
      by_cases hb : batch_latest s e < e
      · rw [if_pos hb]
        exact speedLoop_pairwise
      · rw [if_neg hb]
        exact List.Pairwise.nil
    · intro p hp q hq
      exact lt_of_lt_of_le (batchPoints_mem_lt hp) (speedPoints_mem_ge hq).1
  exact ⟨hmain, hmain.imp fun h => ne_of_lt h⟩

/-- Counterexample to claim C3: for the range 0:02:30–0:03:00 (150–180)
the cutover is 0, and with an empty speed store and one `fact_orders` row
at `t = 10` the output contains the bucket `(0, 1)`, whose timestamp `0`
is before `range.start = 150` — the source clamps the speed scan to the
cutover only, never to `range.start`. -/
theorem claim_c3_counterexample :
    ((0 : Int), (1 : Nat)) ∈
        get_order_count_by_minute ⟨[10], fun _ => none⟩ 150 180 ∧
      (0 : Int) < 150 := by
  constructor
  · have hbl : batch_latest 150 180 = 0 := by
      unfold batch_latest
      rw [resolve_eq (by norm_num) (by norm_num)]
      norm_num
    unfold get_order_count_by_minute batchPoints speedPoints
    rw [hbl]
    rw [if_neg (by norm_num), if_pos (by norm_num)]
    simp only [List.nil_append]
    rw [speedLoop_step (by norm_num)]
    exact List.mem_cons_self _ _
  · norm_num

/-- Claim C3, amended: the speed-layer portion reads exactly the minute
buckets of `[cutover, range.end)` — clamping to `range.start` does not
happen, so when `range.start > cutover` buckets before `range.start`
appear in its output. -/
theorem claim_c3_amended_speed_range (st : Stores) (s e : Int) :
    (speedPoints st s e).map Prod.fst = minuteRange (batch_latest s e) e :=
  speedPoints_map_fst st s e

/-- Counterexample to claim C4: for the zero-length range `[60, 60)` with
the speed store holding value 5 for bucket 0, the result is `[(0, 5)]` —
not the empty sequence, and speed-store calls were made. -/
theorem claim_c4_counterexample :
    get_order_count_by_minute ⟨[], fun t => if t = 0 then some 5 else none⟩ 60 60
      = [((0 : Int), (5 : Nat))] := by
  have hbl : batch_latest 60 60 = 0 := by
    unfold batch_latest
    rw [resolve_eq (by norm_num) (by norm_num)]
    norm_num
  unfold get_order_count_by_minute batchPoints speedPoints
  rw [hbl]
  rw [if_neg (by norm_num), if_pos (by norm_num)]
  rw [speedLoop_step (by norm_num), speedLoop_stop (by norm_num)]
  norm_num

/-- Claim C4, amended: a zero-length range raises no error and issues no
batch-range query, but the cutover always lands strictly before `end`, so
the speed layer is still scanned over every bucket of `[cutover, end)`
(store calls are made) and the result is never empty. -/
theorem claim_c4_amended_empty_range (st : Stores) (s : Int) :
    batchPoints st.factOrders s s = [] ∧
    batch_latest s s < s ∧
    (get_order_count_by_minute st s s).map Prod.fst = minuteRange (batch_latest s s) s ∧
    get_order_count_by_minute st s s ≠ [] := by
  have hbl := batch_latest_lt_self s
  have hbp : batchPoints st.factOrders s s = [] := by
    unfold batchPoints
    rw [if_neg (by omega)]
  refine ⟨hbp, hbl, ?_, ?_⟩
  · unfold get_order_count_by_minute
    rw [hbp, List.nil_append]
    exact speedPoints_map_fst st s s
  · unfold get_order_count_by_minute
    rw [hbp, List.nil_append]
    unfold speedPoints
    rw [if_pos hbl, speedLoop_step hbl]
    exact List.cons_ne_nil _ _

/-- Counterexample to claim C2: for the range `[0, 60)` with an empty
speed store and an empty `fact_orders` table, the single-bucket fallback
(`SELECT count()` without `GROUP BY`) returns the one row `(0,)`, so the
`if fallback_result:` guard of line 100 is taken and the bucket is
reported as `(0, 0)` — a synthesized zero count, not an omitted
bucket. -/
theorem claim_c2_counterexample :
    get_order_count_by_minute ⟨[], fun _ => none⟩ 0 60 = [((0 : Int), (0 : Nat))] := by
  have hbl : batch_latest 0 60 = 0 := by
    unfold batch_latest
    rw [resolve_eq (by norm_num) (by norm_num)]
    norm_num
  unfold get_order_count_by_minute batchPoints speedPoints
  rw [hbl]
  rw [if_neg (by norm_num), if_pos (by norm_num)]
  rw [speedLoop_step (by norm_num), speedLoop_stop (by norm_num)]
  norm_num
  rfl

/-- Claim C2, amended: for every bucket of the speed-layer scan for which
the speed store has no value, the code issues the single-bucket aggregate
count query for that exact one-minute window and appends `(bucket,
count)` unconditionally — the count query always returns exactly one row,
so a window with no matching rows yields a point with count 0 rather than
an omitted bucket; in particular a missing bucket whose window holds 7
rows is reported as `(bucket, 7)`. -/
theorem claim_c2_amended_fallback (st : Stores) (s e t : Int) (k : Nat)
    (h1 : st.speed t = none)
    (h2 : t = batch_latest s e + 60 * (k : Int))
    (h3 : t < e) :
    (t, fallbackCount st.factOrders t (t + 60)) ∈ get_order_count_by_minute st s e := by
  have hble : batch_latest s e ≤ t := by omega
  have hbe : batch_latest s e < e := lt_of_le_of_lt hble h3
  unfold get_order_count_by_minute
  apply List.mem_append_right
  unfold speedPoints
  rw [if_pos hbe]
  exact speedLoop_mem_fallback st e k (batch_latest s e) t h2 h1 h3

/-- Witness for the amended C2, scenario B: range 14:00–14:05
(50400–50700), speed store holding every bucket except 14:02 (50520), and
7 `fact_orders` rows inside `[14:02, 14:03)`: the merged series contains
`(50520, 7)` sourced via the fallback. -/
theorem claim_c2_amended_fallback_witness :
    (fun t : Int => if t = 50520 then none else some 1) 50520 = (none : Option Nat) ∧
      (50520 : Int) < 50700 ∧
      ((50520 : Int), (7 : Nat)) ∈
        get_order_count_by_minute
          ⟨[50520, 50521, 50522, 50523, 50524, 50525, 50526],
            fun t => if t = 50520 then none else some 1⟩ 50400 50700 := by
  have hbl : batch_latest 50400 50700 = 50400 := by
    unfold batch_latest
    rw [resolve_eq (by norm_num) (by norm_num)]
    norm_num
  refine ⟨by norm_num, by norm_num, ?_⟩
  have happ := claim_c2_amended_fallback
    ⟨[50520, 50521, 50522, 50523, 50524, 50525, 50526],
      fun t => if t = 50520 then none else some 1⟩
    50400 50700 50520 2 (by norm_num) (by rw [hbl]; norm_num) (by norm_num)
  have hcnt : fallbackCount [50520, 50521, 50522, 50523, 50524, 50525, 50526]
      50520 (50520 + 60) = 7 := by decide
  rw [hcnt] at happ
  exact happ

/-- Counterexample to claim C9: for cadence 1 hour and the window
13:00–14:30 (46800–52200), the computed cutover is 14:00 (50400), not
13:00 (46800), and since `start < cutover` the batch layer covers
`[13:00, 14:00)` — not nothing. -/
theorem claim_c9_counterexample :
    batch_latest 46800 52200 = 50400 ∧ (46800 : Int) < 50400 := by
  constructor
  · unfold batch_latest
    rw [resolve_eq (by norm_num) (by norm_num)]
    norm_num
  · norm_num

/-- Claim C9, amended: for cadence 1 hour and window 13:00–14:30, the
cutover is 14:00 (50400); the batch layer covers `[13:00, 14:00)` via the
grouped query and the speed layer covers `[14:00, 14:30)`
bucket-by-bucket. -/
theorem claim_c9_amended_scenario_a (st : Stores) :
    batch_latest 46800 52200 = 50400 ∧
    get_order_count_by_minute st 46800 52200 =
      batchQuery st.factOrders 46800 50400 ++ speedLoop st 50400 52200 := by
  have hbl : batch_latest 46800 52200 = 50400 := by
    unfold batch_latest
    rw [resolve_eq (by norm_num) (by norm_num)]
    norm_num
  refine ⟨hbl, ?_⟩
  unfold get_order_count_by_minute batchPoints speedPoints
  rw [hbl]
  rw [if_pos (by norm_num), if_pos (by norm_num)]
  norm_num

/-- Counterexample to claim C7: one `mv_daily_sales` row for category
`"A"` on day 0 with `daily_sales = 5` and `order_count = 0` produces a
result row whose `avg_order_value` is the unguarded store-side division
`5 / 0` — infinity/NaN for float types or a division fault for decimal
types, in no case the number 0. -/
theorem claim_c7_counterexample :
    (dailySalesRow [⟨"A", 0, 5, 0⟩] 0 0 "A" 0).map DailySalesEntry.avg_order_value
        = some none ∧
      some (none : Option ℚ) ≠ some (some (0 : ℚ)) := by
  constructor
  · rfl
  · simp

/-- Claim C7, amended: `avg_order_value` in `get_realtime_metrics` and
the three conversion rates in `get_conversion_funnel` are guarded
Python-side and equal exactly 0 on a zero denominator; but
`avg_order_value` in `get_daily_sales_by_category` is an unguarded
store-side division, which on a zero denominator does not produce 0
(infinity/NaN or a store-side division fault, modelled `none`). -/
theorem claim_c7_amended_safe_division
    (rt : List RtRow) (evs : List (Int × String)) (lo hi : Int)
    (tbl : List MvRow) (lo2 hi2 : Int) (cat : String) (d : Int)
    (h1 : rtTotalOrders rt = 0)
    (h2 : countIf evs lo hi "page_view" = 0)
    (h3 : countIf evs lo hi "add_to_cart" = 0)
    (h4 : mvMatches tbl lo2 hi2 cat d ≠ [])
    (h5 : mvCountSum (mvMatches tbl lo2 hi2 cat d) = 0) :
    (get_realtime_metrics rt).avg_order_value = 0 ∧
    (get_conversion_funnel evs lo hi).map
        (fun f => (f.view_to_cart_rate, f.cart_to_purchase_rate,
          f.overall_conversion_rate))
      = some (0, 0, 0) ∧
    (dailySalesRow tbl lo2 hi2 cat d).map DailySalesEntry.avg_order_value
      = some none := by
  refine ⟨?_, ?_, ?_⟩
  · simp [get_realtime_metrics, h1]
  · simp [get_conversion_funnel, funnelFromRows, funnelQuery, h2, h3]
  · obtain ⟨r, rs, hm⟩ : ∃ r rs, mvMatches tbl lo2 hi2 cat d = r :: rs := by
      cases hmm : mvMatches tbl lo2 hi2 cat d with
      | nil => exact absurd hmm h4
      | cons a l => exact ⟨a, l, rfl⟩
    have h5' : mvCountSum (r :: rs) = 0 := by
      rw [← hm]
      exact h5
    unfold dailySalesRow
    rw [hm]
    simp [clickhouseDiv, h5']

/-- Witness for the amended C7: empty realtime rows, empty clickstream,
and a single zero-count view row for category `"A"` on day 0. -/
theorem claim_c7_amended_safe_division_witness :
    rtTotalOrders [] = 0 ∧
    countIf [] 0 0 "page_view" = 0 ∧
    countIf [] 0 0 "add_to_cart" = 0 ∧
    mvMatches [⟨"A", 0, 5, 0⟩] 0 0 "A" 0 ≠ [] ∧
    mvCountSum (mvMatches [⟨"A", 0, 5, 0⟩] 0 0 "A" 0) = 0 ∧
    ((get_realtime_metrics []).avg_order_value = 0 ∧
      (get_conversion_funnel [] 0 0).map
          (fun f => (f.view_to_cart_rate, f.cart_to_purchase_rate,
            f.overall_conversion_rate))
        = some (0, 0, 0) ∧
      (dailySalesRow [⟨"A", 0, 5, 0⟩] 0 0 "A" 0).map DailySalesEntry.avg_order_value
        = some none) :=
  ⟨by decide, by decide, by decide, by decide, by decide,
    claim_c7_amended_safe_division [] [] 0 0 [⟨"A", 0, 5, 0⟩] 0 0 "A" 0
      (by decide) (by decide) (by decide) (by decide) (by decide)⟩

/-- Counterexample to claim C8: a clickstream of one `page_view` event
and two `add_to_cart` events on day 0 gives `view_to_cart_rate = 200`,
which is not in `[0, 100]`. -/
theorem claim_c8_counterexample :
    (get_conversion_funnel [(0, "page_view"), (0, "add_to_cart"), (0, "add_to_cart")]
          0 0).map FunnelResult.view_to_cart_rate
        = some 200 ∧
      ¬ ((200 : ℚ) ≤ 100) := by
  have hpv : countIf [(0, "page_view"), (0, "add_to_cart"), (0, "add_to_cart")]
      0 0 "page_view" = 1 := by decide
  have hatc : countIf [(0, "page_view"), (0, "add_to_cart"), (0, "add_to_cart")]
      0 0 "add_to_cart" = 2 := by decide
  constructor
  · unfold get_conversion_funnel funnelQuery funnelFromRows
    rw [hpv, hatc]
    norm_num
  · norm_num

/-- A zero-denominator-guarded percentage is nonnegative for any
numerator and denominator. -/
lemma rate_nonneg (a b : Nat) :
    0 ≤ (if 0 < b then (a : ℚ) / (b : ℚ) * 100 else 0) := by
  by_cases hb : 0 < b
  · rw [if_pos hb]
    positivity
  · rw [if_neg hb]

/-- Zero-denominator-guarded percentage `if 0 < b then a / b * 100 else 0`
is in `[0, 100]` whenever `a <= b`. -/
lemma rate_bounds {a b : Nat} (hab : a ≤ b) :
    0 ≤ (if 0 < b then (a : ℚ) / (b : ℚ) * 100 else 0) ∧
    (if 0 < b then (a : ℚ) / (b : ℚ) * 100 else 0) ≤ 100 := by
  by_cases hb : 0 < b
  · rw [if_pos hb]
    have hb' : (0 : ℚ) < (b : ℚ) := by exact_mod_cast hb
    constructor
    · positivity
    · have h1 : (a : ℚ) / (b : ℚ) ≤ 1 := (div_le_one hb').mpr (by exact_mod_cast hab)
      calc (a : ℚ) / (b : ℚ) * 100 ≤ 1 * 100 := by
            apply mul_le_mul_of_nonneg_right h1
            norm_num
        _ = 100 := by norm_num
  · rw [if_neg hb]
    norm_num

/-- Claim C8, amended: for every batch-store result, each funnel rate is
nonnegative and equals 0 whenever its denominator is 0 (the Python-side
guards of lines 444–446), and each rate lies in `[0, 100]` whenever its
numerator does not exceed its denominator (funnel-monotone event counts)
— a property of the data the code does not enforce, so a rate can exceed
100 otherwise. -/
theorem claim_c8_amended_rate_bounds (evs : List (Int × String)) (lo hi : Int) :
    ∃ f, get_conversion_funnel evs lo hi = some f ∧
      (0 ≤ f.view_to_cart_rate ∧ 0 ≤ f.cart_to_purchase_rate ∧
        0 ≤ f.overall_conversion_rate) ∧
      (countIf evs lo hi "page_view" = 0 →
        f.view_to_cart_rate = 0 ∧ f.overall_conversion_rate = 0) ∧
      (countIf evs lo hi "add_to_cart" = 0 → f.cart_to_purchase_rate = 0) ∧
      (countIf evs lo hi "add_to_cart" ≤ countIf evs lo hi "page_view" →
        f.view_to_cart_rate ≤ 100) ∧
      (countIf evs lo hi "purchase" ≤ countIf evs lo hi "add_to_cart" →
        f.cart_to_purchase_rate ≤ 100) ∧
      (countIf evs lo hi "purchase" ≤ countIf evs lo hi "page_view" →
        f.overall_conversion_rate ≤ 100) := by
  refine ⟨_, rfl, ⟨?_, ?_, ?_⟩, ?_, ?_, ?_, ?_, ?_⟩
  · exact rate_nonneg _ _
  · exact rate_nonneg _ _
  · exact rate_nonneg _ _
  · intro h
    constructor
    · show (if 0 < countIf evs lo hi "page_view" then _ else 0) = 0
      rw [h]
      norm_num
    · show (if 0 < countIf evs lo hi "page_view" then _ else 0) = 0
      rw [h]
      norm_num
  · intro h
    show (if 0 < countIf evs lo hi "add_to_cart" then _ else 0) = 0
    rw [h]
    norm_num
  · intro h
    exact (rate_bounds h).2
  · intro h
    exact (rate_bounds h).2
  · intro h
    exact (rate_bounds h).2

/-- Claim C10: `get_conversion_funnel` indexes the first row of the store
result unconditionally (`execute(...)[0]`, line 436); it is well-defined
exactly when the store returns at least one row, and on the empty
response it faults with an out-of-bounds access (`none` here models the
`IndexError`) instead of returning a value or a domain error. -/
theorem claim_c10_unguarded_index (rows : List (Nat × Nat × Nat)) (hne : rows ≠ []) :
    funnelFromRows [] = none ∧ (funnelFromRows rows).isSome = true := by
  constructor
  · rfl
  · cases rows with
    | nil => exact absurd rfl hne
    | cons r l => rfl

/-- Witness for C10 at the one-row response `[(0, 0, 0)]`. -/
theorem claim_c10_unguarded_index_witness :
    ([((0 : Nat), (0 : Nat), (0 : Nat))] : List (Nat × Nat × Nat)) ≠ [] ∧
      (funnelFromRows [] = none ∧
        (funnelFromRows [((0 : Nat), (0 : Nat), (0 : Nat))]).isSome = true) :=
  ⟨by decide, claim_c10_unguarded_index [(0, 0, 0)] (by decide)⟩

end AnalyticsQuery
